import Mathlib

/-!
Verification of the manual-resolution cache and multi-source search pipeline.

Shallow embedding of `app/manual_finder.py`, `app/db.py` and the worker /
download-job parts of `app/main.py`.  External effects (HTTP fetches, the
Perplexity API, the record store) are modelled as explicit environment
functions; Python strings are Lean `String`s with Python-style helper
operations; byte payloads are `List Nat`; timestamps are `Int` seconds.
-/

/-! ## Python-style string and truthiness helpers -/

/-- Python's `str.lower()` (ASCII). -/
def pyLower (s : String) : String := String.mk (s.toList.map Char.toLower)

/-- Python's `str.upper()` (ASCII). -/
def pyUpper (s : String) : String := String.mk (s.toList.map Char.toUpper)

/-- Python's `str.startswith`. -/
def pyStartsWith (s p : String) : Bool := p.toList.isPrefixOf s.toList

/-- Python's `str.endswith`. -/
def pyEndsWith (s p : String) : Bool := p.toList.isSuffixOf s.toList

/-- Substring occurrence check over char lists (`needle` occurs in `hay`). -/
def infixCheck (needle : List Char) : List Char → Bool
  | [] => needle.isEmpty
  | c :: cs => needle.isPrefixOf (c :: cs) || infixCheck needle cs

/-- Python's `needle in hay` on strings. -/
def strContains (hay needle : String) : Bool := infixCheck needle.toList hay.toList

/-- Python `\s` / `str.strip()` whitespace characters (ASCII). -/
def isPyWs (c : Char) : Bool :=
  c == ' ' || c == '\t' || c == '\n' || c == '\r' || c == Char.ofNat 11 || c == Char.ofNat 12

/-- Python's `str.strip()`. -/
def pyTrim (s : String) : String :=
  String.mk (((s.toList.dropWhile isPyWs).reverse.dropWhile isPyWs).reverse)

/-- The cache key normalisation used throughout `db.py`: `strip().upper()`. -/
def normalizeModel (s : String) : String := pyUpper (pyTrim s)

/-- Python truthiness of an optional string (`None` and `""` are falsy). -/
def truthyS : Option String → Bool
  | none => false
  | some s => !(s == "")

/-- Python `a or b` where both operands are optional strings. -/
def pyOrOpt (a b : Option String) : Option String := if truthyS a then a else b

/-- Python `a or b` on plain strings (empty string is falsy). -/
def pyOrStr (a b : String) : String := if a == "" then b else a

/-- Python truthiness of optional bytes (`None` and `b""` are falsy). -/
def bytesTruthy : Option (List Nat) → Bool
  | none => false
  | some bs => !bs.isEmpty

/-- Python's `str.replace(" ", "_")`. -/
def replaceSpaces (s : String) : String :=
  String.mk (s.toList.map (fun c => if c == ' ' then '_' else c))

/-! ## HTTP and network model

An HTTP response carries the status code, the `Content-Type` header and the
body bytes.  `requests.get` either raises (network error / timeout), modelled
as `none`, or yields a response; note that `requests` does not raise on
non-2xx statuses unless `raise_for_status()` is called. -/

structure HttpResp where
  status : Nat
  contentType : String
  content : List Nat
deriving DecidableEq

/-- One hyperlink on a fetched page: its `href` and its visible text. -/
structure Link where
  href : String
  text : String
deriving DecidableEq

/-- A Perplexity chat response: the answer text and the citation URLs. -/
structure PplxResp where
  text : String
  citations : List String
deriving DecidableEq

/-- The external network collaborators of `manual_finder.py`.
`fetch` is `requests.get` for document downloads; `pageLinks` is the fetch +
BeautifulSoup link extraction used by `_scan_page_for_pdf_links` (`none` =
exception); `ddgHrefs` gives the raw `a.result__url` and `a.result__a` hrefs
of the DuckDuckGo result page (`none` = transport error / non-2xx, since
`_search_duckduckgo` calls `raise_for_status`); `uddgParam` is the
urlparse/parse_qs/unquote composite of `_clean_ddg_url`; `urljoin` is
`urllib.parse.urljoin`. -/
structure NetEnv where
  pplxConfigured : Bool
  pplxApi : Option PplxResp
  fetch : String → Option HttpResp
  pageLinks : String → Option (List Link)
  ddgHrefs : String → Option (List String × List String)
  uddgParam : String → Option String
  urljoin : String → String → String

/-- The `%PDF-` magic signature. -/
def pdfMagic : List Nat := [37, 80, 68, 70, 45]

/-- `_try_download_pdf`: fetch a URL; accept the body as a PDF if the declared
content type contains "pdf" (case-insensitive) or the first five bytes match
the magic signature.  The HTTP status code is never consulted (the source
performs no `raise_for_status` here). Exceptions yield `None`. -/
def tryDownloadPdf (net : NetEnv) (url : String) : Option (List Nat) :=
  match net.fetch url with
  | none => none
  | some resp =>
    if strContains (pyLower resp.contentType) "pdf" then some resp.content
    else if resp.content.take 5 == pdfMagic then some resp.content
    else none

/-- `_clean_ddg_url`: unwrap a DuckDuckGo redirect href. -/
def cleanDdgUrl (net : NetEnv) (href : String) : Option String :=
  if href == "" then none
  else
    match (if strContains href "uddg=" then net.uddgParam href else none) with
    | some u => some u
    | none =>
      if pyStartsWith href "http" then some href
      else if pyStartsWith href "//" then some ("https:" ++ href)
      else none

/-- The order-preserving dedup in `_search_duckduckgo`, which also drops any
URL containing `duckduckgo.com`. -/
def dedupNonDdg : List String → List String → List String
  | [], _ => []
  | u :: rest, seen =>
    if !(seen.contains u) && !(strContains u "duckduckgo.com") then
      u :: dedupNonDdg rest (u :: seen)
    else dedupNonDdg rest seen

/-- `_search_duckduckgo`: on transport failure return `[]`; otherwise clean
both selector groups, dedup (excluding DuckDuckGo's own domain) and cap at
10 results. -/
def searchDuckduckgo (net : NetEnv) (query : String) : List String :=
  match net.ddgHrefs query with
  | none => []
  | some (urlTags, aTags) =>
    let urls := urlTags.filterMap (cleanDdgUrl net) ++ aTags.filterMap (cleanDdgUrl net)
    (dedupNonDdg urls []).take 10

/-! ## The Perplexity (AI-assisted) resolver -/

/-- The static brand → manufacturer-domain table `_MANUFACTURER_DOMAINS`. -/
def manufacturerDomains : List (String × String) :=
  [("crestron", "crestron.com"), ("savant", "savant.com"), ("control4", "control4.com"),
   ("lutron", "lutron.com"), ("sonance", "sonance.com"), ("samsung", "samsung.com"),
   ("lg", "lg.com"), ("sony", "sony.com"), ("ubiquiti", "ui.com"), ("unifi", "ui.com"),
   ("wattbox", "snapone.com"), ("snap one", "snapone.com"), ("episode", "snapone.com"),
   ("binary", "snapone.com"), ("apple", "support.apple.com"), ("sonos", "sonos.com"),
   ("denon", "denon.com"), ("marantz", "marantz.com"), ("yamaha", "yamaha.com"),
   ("epson", "epson.com"), ("origin acoustics", "originacoustics.com"),
   ("atlona", "atlona.com"), ("qsc", "qsc.com"), ("shure", "shure.com"),
   ("middle atlantic", "middleatlantic.com"), ("araknis", "araknisnetworks.com"),
   ("parasound", "parasound.com"), ("innovolt", "innovolt.com"), ("surgex", "surgex.com"),
   ("bose", "bose.com"), ("klipsch", "klipsch.com"), ("jbl", "jbl.com"),
   ("harman", "harmanpro.com"), ("russound", "russound.com"), ("autonomic", "autonomic.com"),
   ("seura", "seura.com"), ("leon", "leonspeakers.com"), ("triad", "triadspeakers.com"),
   ("james loudspeaker", "jamesloudspeaker.com"), ("just add power", "justaddpower.com"),
   ("access networks", "accessnetworks.com"), ("pakedge", "pakedge.com"),
   ("ruckus", "ruckuswireless.com")]

/-- `_MANUFACTURER_DOMAINS.get(brand.strip().lower())`. -/
def lookupDomain (brand : String) : Option String :=
  (manufacturerDomains.find? (fun p => p.1 == pyLower (pyTrim brand))).map (·.2)

/-- Match `\s*(https?://\S+)` at the start of `cs` (the text following an
occurrence of `PDF_URL:`); yields the matched `\S+` token. -/
def matchPdfUrlAt (cs : List Char) : Option (List Char) :=
  let rest := cs.dropWhile isPyWs
  let tok := rest.takeWhile (fun c => !isPyWs c)
  if "https://".toList.isPrefixOf rest then
    if tok.length > 8 then some tok else none
  else if "http://".toList.isPrefixOf rest then
    if tok.length > 7 then some tok else none
  else none

/-- Leftmost-match search for the pattern `PDF_URL:\s*(https?://\S+)`. -/
def findPdfUrlAux : List Char → Option (List Char)
  | [] => none
  | c :: cs =>
    match (if "PDF_URL:".toList.isPrefixOf (c :: cs)
           then matchPdfUrlAt ((c :: cs).drop 8) else none) with
    | some tok => some tok
    | none => findPdfUrlAux cs

/-- `re.search(r"PDF_URL:\s*(https?://\S+)", text)` followed by
`.group(1).rstrip(")")`. -/
def extractPdfUrlFromText (text : String) : Option String :=
  match findPdfUrlAux text.toList with
  | some tok => some (String.mk (tok.reverse.dropWhile (· == ')')).reverse)
  | none => none

/-- The keyword list used for citation candidates in the Perplexity resolver. -/
def manualKwPplx : List String :=
  ["manual", "guide", "instruction", "documentation", "user-guide"]

/-- Candidate construction of `_search_perplexity_for_manual`: the explicit
`PDF_URL:` link, then citations ending in `.pdf`, then citations whose text
contains a documentation keyword (deduplicated against the growing list),
then all remaining citations. -/
def buildCandidates (resp : PplxResp) : List String :=
  let c1 : List String :=
    match extractPdfUrlFromText resp.text with
    | some url => if url ≠ "NOT_FOUND" then [url] else []
    | none => []
  let c2 := c1 ++ resp.citations.filter (fun c => pyEndsWith (pyLower c) ".pdf")
  let c3 := resp.citations.foldl (fun acc c =>
    if (manualKwPplx.any (fun kw => strContains (pyLower c) kw)) && !(acc.contains c)
    then acc ++ [c] else acc) c2
  resp.citations.foldl (fun acc c => if !(acc.contains c) then acc ++ [c] else acc) c3

/-- The download loop over candidate URLs (`for url in candidates: ...`):
return the first candidate whose download yields truthy bytes. -/
def tryCandidateDownloads (net : NetEnv) : List String → Option (String × List Nat)
  | [] => none
  | url :: rest =>
    match tryDownloadPdf net url with
    | some bs => if bs.isEmpty then tryCandidateDownloads net rest else some (url, bs)
    | none => tryCandidateDownloads net rest

/-- The keyword list of `_scan_page_for_pdf_links`. -/
def manualKeywordsScan : List String :=
  ["manual", "guide", "user guide", "instruction", "documentation"]

/-- `_scan_page_for_pdf_links`: collect every hyperlink whose target ends in
`.pdf` and which contains a documentation keyword or the model token in its
URL or link text; relative links are resolved against the page URL.  Any
exception yields the empty candidate list. -/
def scanPageForPdfLinks (net : NetEnv) (pageUrl model : String) : List String :=
  match net.pageLinks pageUrl with
  | none => []
  | some links =>
    let modelLower := pyLower model
    links.filterMap (fun l =>
      let linkText := pyLower l.text
      let lowerHref := pyLower l.href
      let isPdfLink := pyEndsWith lowerHref ".pdf"
      let hasManualKw := manualKeywordsScan.any
        (fun kw => strContains lowerHref kw || strContains linkText kw)
      let hasModel := strContains lowerHref modelLower || strContains linkText modelLower
      if isPdfLink && (hasManualKw || hasModel) then
        some (if pyStartsWith l.href "http" then l.href else net.urljoin pageUrl l.href)
      else none)

/-- The page-scanning fallback inside the Perplexity resolver: scan the first
three non-`.pdf` candidates' pages for embedded PDF links and try to download
each discovered link. -/
def scanCandidatePages (net : NetEnv) (model : String) :
    List String → Option (String × List Nat)
  | [] => none
  | url :: rest =>
    if pyEndsWith (pyLower url) ".pdf" then scanCandidatePages net model rest
    else
      match tryCandidateDownloads net (scanPageForPdfLinks net url model) with
      | some r => some r
      | none => scanCandidatePages net model rest

/-- `_search_perplexity_for_manual`: returns `(manual_url, manual_pdf_bytes)`.
`(none, none)` when the API key is absent, the API call raises, or nothing is
found; `(some url, none)` when a candidate link was found but no download
succeeded. -/
def searchPerplexityForManual (net : NetEnv) (_brand _model _name : String) :
    Option String × Option (List Nat) :=
  if !net.pplxConfigured then (none, none)
  else
    match net.pplxApi with
    | none => (none, none)
    | some resp =>
      let candidates := buildCandidates resp
      match tryCandidateDownloads net candidates with
      | some (url, bs) => (some url, some bs)
      | none =>
        match scanCandidatePages net _model (candidates.take 3) with
        | some (url, bs) => (some url, some bs)
        | none =>
          match candidates with
          | c :: _ => (some c, none)
          | [] => (none, none)

/-! ## The DuckDuckGo fallback chain -/

/-- `_build_search_queries`: the fixed ordered query list. -/
def buildSearchQueries (brand model _name : String) : List String :=
  let q1 := brand ++ " " ++ model ++ " user manual PDF"
  let q2 :=
    match lookupDomain brand with
    | some d => "site:" ++ d ++ " " ++ model ++ " manual"
    | none => model ++ " installation manual PDF"
  let q3 := brand ++ " " ++ model ++ " product support documentation"
  [q1, q2, q3]

/-- Pass 1 of the DDG fallback: try direct download of every result URL that
ends in `.pdf`, stopping at the first truthy download. -/
def ddgDirectPass (net : NetEnv) : List String → Option (String × List Nat)
  | [] => none
  | url :: rest =>
    if pyEndsWith (pyLower url) ".pdf" then
      match tryDownloadPdf net url with
      | some bs => if bs.isEmpty then ddgDirectPass net rest else some (url, bs)
      | none => ddgDirectPass net rest
    else ddgDirectPass net rest

/-- Pass 2 of the DDG fallback: scan each result page for embedded PDF links
and try to download the discovered candidates. -/
def ddgScanPass (net : NetEnv) (model : String) : List String → Option (String × List Nat)
  | [] => none
  | url :: rest =>
    match tryCandidateDownloads net (scanPageForPdfLinks net url model) with
    | some r => some r
    | none => ddgScanPass net model rest

/-- The DDG query loop of `find_manual_and_warranty`: for each query, search,
then pass 1 (direct PDFs, first four pages are not limited here) and pass 2
(scan the first four result pages); stop at the first successful download. -/
def ddgFallback (net : NetEnv) (model : String) : List String → Option (String × List Nat)
  | [] => none
  | q :: rest =>
    let searchUrls := searchDuckduckgo net q
    match ddgDirectPass net searchUrls with
    | some r => some r
    | none =>
      match ddgScanPass net model (searchUrls.take 4) with
      | some r => some r
      | none => ddgFallback net model rest

/-! ## The Resolution Orchestrator -/

/-- The dictionary returned by `find_manual_and_warranty`.  The source builds
it with exactly the keys `manual_pdf_bytes`, `manual_source_url` and
`status`; `warranty_length` models the *absent* optional key that the caller
reads with `result.get("warranty_length")`, hence it defaults to `none`. -/
structure FindResult where
  manual_pdf_bytes : Option (List Nat)
  manual_source_url : Option String
  status : String
  warranty_length : Option String := none
deriving DecidableEq

/-- Step 1 of `find_manual_and_warranty` (lines 345-353): consult Perplexity
when configured; keep its bytes when truthy, else remember its URL when
truthy.  Returns `(manual_pdf_bytes, manual_source_url)`. -/
def pplxStep (net : NetEnv) (brand model name : String) :
    Option (List Nat) × Option String :=
  if net.pplxConfigured then
    let p := searchPerplexityForManual net brand model name
    if bytesTruthy p.2 then (p.2, p.1)
    else if truthyS p.1 then (none, p.1)
    else (none, none)
  else (none, none)

/-- `find_manual_and_warranty`: Perplexity first (when configured), then the
DuckDuckGo fallback chain when no truthy bytes were obtained; `status` is
`"found"` exactly when truthy bytes were obtained.  No warranty-related work
is performed anywhere in the function. -/
def find_manual_and_warranty (net : NetEnv) (brand model name : String) : FindResult :=
  let step1 : Option (List Nat) × Option String := pplxStep net brand model name
  let afterDdg : Option (List Nat) × Option String :=
    if bytesTruthy step1.1 then step1
    else
      match ddgFallback net model (buildSearchQueries brand model name) with
      | some (url, bs) => (some bs, some url)
      | none => step1
  { manual_pdf_bytes := afterDdg.1
    manual_source_url := afterDdg.2
    status := if bytesTruthy afterDdg.1 then "found" else "not_found" }

/-- The inner loop of `download_pdf_from_url` over scraped page candidates. -/
def downloadFromCandidates (net : NetEnv) : List String → Option (List Nat)
  | [] => none
  | c :: rest =>
    match tryDownloadPdf net c with
    | some bs => if bs.isEmpty then downloadFromCandidates net rest else some bs
    | none => downloadFromCandidates net rest

/-- `download_pdf_from_url`: direct download first; otherwise scrape the page
for PDF links with an *empty* model token and try each candidate. -/
def download_pdf_from_url (net : NetEnv) (url : String) : Option (List Nat) :=
  match tryDownloadPdf net url with
  | some bs =>
    if !bs.isEmpty then some bs
    else downloadFromCandidates net (scanPageForPdfLinks net url "")
  | none => downloadFromCandidates net (scanPageForPdfLinks net url "")

/-! ## The Cache Gate and Job Runner (`_process_project` in `main.py`)

Record-store effects are modelled by environment functions returning
`Except String` (an `error` models a raised exception), and each external
call is logged as an `Event` in an append-only trace, so that claims like
"the Orchestrator is never invoked" become statements about the trace. -/

/-- A cached product row (`products` table).  `last_verified` distinguishes
an absent/falsy field (`none`), a present but unparseable timestamp
(`some none`) and a parsed timestamp in seconds (`some (some t)`). -/
structure CacheRecord where
  id : String
  manual_source_url : Option String
  manual_storage_path : Option String
  warranty_length : Option String
  last_verified : Option (Option Int)
deriving DecidableEq

/-- A project work item (`project_items` row) as read by the worker. -/
structure Item where
  id : String
  brand : String
  model_number : String
  product_name : String
  status : String
deriving DecidableEq

/-- The data upserted into the `products` table (after `db.upsert_product`
normalised the model number). -/
structure ProductData where
  brand : String
  model_number : String
  product_name : String
  manual_source_url : Option String
  manual_storage_path : Option String
  warranty_length : Option String
  last_verified : Option Int
deriving DecidableEq

/-- An update dict for a `project_items` row; `none` marks an absent key.
For `manual_url` the outer `Option` is key presence and the inner one is the
(possibly `None`) value. -/
structure ItemUpdate where
  product_id : Option String := none
  status : Option String := none
  manual_url : Option (Option String) := none
  notes : Option String := none
deriving DecidableEq

/-- The per-job progress record (`_progress[project_id]`). -/
structure Progress where
  message : String
  done : Bool
  error : Option String
deriving DecidableEq

/-- External calls made by the worker, logged in order of invocation. -/
inductive Event where
  | setProgress (p : Progress)
  | getProduct (model : String)
  | getManualUrl (path : String)
  | uploadManual (path : String) (bytes : List Nat)
  | upsertProduct (d : ProductData)
  | updateItem (id : String) (d : ItemUpdate)
  | orchCall (brand model name : String)
deriving DecidableEq

/-- The worker's collaborators: the current time, the record/blob store
(each call may raise) and the network environment of the orchestrator. -/
structure Env where
  net : NetEnv
  now : Int
  getProjectItems : Except String (List Item)
  getProductByModel : String → Except String (Option CacheRecord)
  getManualUrl : String → Except String String
  uploadManual : List Nat → String → Except String Unit
  upsertProduct : ProductData → Except String (Option String)
  updateProjectItem : String → ItemUpdate → Except String Unit

/-- The storage-upload step (`main.py` lines 116-128): when the orchestrator
found bytes, upload them and obtain a signed URL; on any failure fall back to
the original source URL (the storage path stays assigned either way).
Returns `(storage_path, manual_url, trace)`. -/
def storageStep (env : Env) (pid brand model : String) (result : FindResult)
    (tr : List Event) : Option String × Option String × List Event :=
  if bytesTruthy result.manual_pdf_bytes then
    let safeBrand := replaceSpaces (pyOrStr brand "unknown")
    let sp := pid ++ "/" ++ safeBrand ++ "_" ++ model ++ "_manual.pdf"
    let bs := result.manual_pdf_bytes.getD []
    let tr := tr ++ [Event.uploadManual sp bs]
    match env.uploadManual bs sp with
    | Except.ok _ =>
      let tr := tr ++ [Event.getManualUrl sp]
      match env.getManualUrl sp with
      | Except.ok u => (some sp, some u, tr)
      | Except.error _ => (some sp, result.manual_source_url, tr)
    | Except.error _ => (some sp, result.manual_source_url, tr)
  else (none, none, tr)

/-- `cached.get("warranty_length") if cached else None` (`main.py` line
105): the warranty seed carried forward from the cache record. -/
def seedOf : Option CacheRecord → Option String
  | some c => c.warranty_length
  | none => none

/-- The warranty-seed merge of the web-search path (`main.py` lines
105-108): run the orchestrator and, when the cache seeds a warranty and the
fresh result carries none, keep the seeded value. -/
def mergedResult (net : NetEnv) (item : Item) (seed : Option String) : FindResult :=
  let result0 := find_manual_and_warranty net item.brand item.model_number item.product_name
  if truthyS seed && !truthyS result0.warranty_length then
    { result0 with warranty_length := seed }
  else result0

/-- The post-orchestrator tail of the web-search path (`main.py` lines
116-148) applied to the merged result: storage upload, product-cache upsert
with a refreshed `last_verified`, and the work-item update. -/
def webSearchCore (env : Env) (pid : String) (item : Item) (result : FindResult)
    (tr : List Event) : Except String Unit × List Event :=
  let brand := item.brand
  let model := item.model_number
  let name := item.product_name
  match storageStep env pid brand model result tr with
  | (storagePath, manualUrl, tr2) =>
    let productData : ProductData :=
      { brand := brand
        model_number := normalizeModel model
        product_name := name
        manual_source_url := pyOrOpt manualUrl result.manual_source_url
        manual_storage_path := storagePath
        warranty_length := result.warranty_length
        last_verified := some env.now }
    let tr3 := tr2 ++ [Event.upsertProduct productData]
    match env.upsertProduct productData with
    | Except.error e => (Except.error e, tr3)
    | Except.ok rowId =>
      let updateData : ItemUpdate :=
        { status := some result.status
          manual_url := some (pyOrOpt manualUrl result.manual_source_url)
          product_id := if truthyS rowId then rowId else none }
      let tr4 := tr3 ++ [Event.updateItem item.id updateData]
      match env.updateProjectItem item.id updateData with
      | Except.ok _ => (Except.ok (), tr4)
      | Except.error e => (Except.error e, tr4)

/-- The web-search tail of the per-item body (`main.py` lines 103-148):
invoke the orchestrator, merge the cached warranty seed into the result,
then run `webSearchCore`. -/
def webSearch (env : Env) (pid : String) (item : Item) (cached : Option CacheRecord)
    (tr : List Event) : Except String Unit × List Event :=
  let brand := item.brand
  let model := item.model_number
  let name := item.product_name
  let existingWarranty : Option String := seedOf cached
  let tr := tr ++ [Event.orchCall brand model name]
  webSearchCore env pid item (mergedResult env.net item existingWarranty) tr

/-- The exact product-cache payload the web-search path upserts (`main.py`
lines 130-139): the discovered document reference — the signed storage URL
preferred over the orchestrator's source URL (Python `or`) — the storage
path, the discovered-or-seeded warranty text, and `last_verified` refreshed
to the current time, keyed by the normalised model.  The storage step's URL
and path components do not depend on the trace, so they are taken at the
empty trace. -/
def corePayload (env : Env) (pid : String) (item : Item) (result : FindResult) :
    ProductData :=
  let s := storageStep env pid item.brand item.model_number result []
  { brand := item.brand
    model_number := normalizeModel item.model_number
    product_name := item.product_name
    manual_source_url := pyOrOpt s.2.1 result.manual_source_url
    manual_storage_path := s.1
    warranty_length := result.warranty_length
    last_verified := some env.now }

/-- `corePayload` applied to the orchestrator result merged with a cached
warranty seed — the payload upserted after a resolution attempt. -/
def upsertPayload (env : Env) (pid : String) (item : Item) (seed : Option String) :
    ProductData :=
  corePayload env pid item (mergedResult env.net item seed)

/-- The partial-cache path (`main.py` lines 99-101): write the product link
onto the item, then fall through to the web search carrying the cached
record as warranty seed. -/
def partialAndSearch (env : Env) (pid : String) (item : Item) (c : CacheRecord)
    (tr : List Event) : Except String Unit × List Event :=
  let linkData : ItemUpdate := { product_id := some c.id }
  let tr := tr ++ [Event.updateItem item.id linkData]
  match env.updateProjectItem item.id linkData with
  | Except.error e => (Except.error e, tr)
  | Except.ok _ => webSearch env pid item (some c) tr

/-- The freshness window: `timedelta(days=7)` in seconds. -/
def freshnessWindow : Int := 7 * 86400

/-- The full-cache-hit branch (`main.py` lines 71-83): regenerate the signed
URL when the manual is stored internally (falling back to the cached source
URL on failure), then mark the item found with the cached reference. -/
def fullHitStep (env : Env) (item : Item) (c : CacheRecord) (tr : List Event) :
    Except String Unit × List Event :=
  match (if truthyS c.manual_storage_path then
           let path := c.manual_storage_path.getD ""
           let tr := tr ++ [Event.getManualUrl path]
           match env.getManualUrl path with
           | Except.ok u => (some u, tr)
           | Except.error _ => (c.manual_source_url, tr)
         else (none, tr) : Option String × List Event) with
  | (manualUrl, tr2) =>
    let linkData : ItemUpdate :=
      { product_id := some c.id
        status := some "found"
        manual_url := some (pyOrOpt manualUrl c.manual_source_url) }
    let tr3 := tr2 ++ [Event.updateItem item.id linkData]
    match env.updateProjectItem item.id linkData with
    | Except.ok _ => (Except.ok (), tr3)
    | Except.error e => (Except.error e, tr3)

/-- The body of the per-item `try` block (`main.py` lines 66-148): cache
lookup, cache-gate decision (full hit / recent not-found suppression /
partial / cold miss) and, on a miss, the web search. -/
def processItemBody (env : Env) (pid : String) (item : Item) (tr : List Event) :
    Except String Unit × List Event :=
  let model := item.model_number
  let key := normalizeModel model
  let tr := tr ++ [Event.getProduct key]
  match env.getProductByModel key with
  | Except.error e => (Except.error e, tr)
  | Except.ok cached =>
    match cached with
    | some c =>
      if truthyS c.manual_source_url then
        -- FULL CACHE HIT: never search.
        fullHitStep env item c tr
      else
        match c.last_verified with
        | some (some lv) =>
          if lv > env.now - freshnessWindow then
            -- SUPPRESSED MISS: recently verified as not found.  The update
            -- sits inside the same `try` as the timestamp parse, so a raise
            -- here falls through (`except: pass`) to the partial path.
            let linkData : ItemUpdate :=
              { product_id := some c.id
                status := some "not_found"
                notes := some "Previously searched (cached)" }
            let tr := tr ++ [Event.updateItem item.id linkData]
            match env.updateProjectItem item.id linkData with
            | Except.ok _ => (Except.ok (), tr)
            | Except.error _ => partialAndSearch env pid item c tr
          else partialAndSearch env pid item c tr
        | some none => partialAndSearch env pid item c tr
        | none => partialAndSearch env pid item c tr
    | none => webSearch env pid item none tr

/-- One loop iteration with its `except` handler (`main.py` lines 150-158):
a per-item failure records an error note on the item (that update's own
failure being swallowed) and never propagates. -/
def processOneItem (env : Env) (pid : String) (item : Item) (tr : List Event) :
    List Event :=
  match processItemBody env pid item tr with
  | (Except.ok _, tr') => tr'
  | (Except.error e, tr') =>
    let errData : ItemUpdate := { status := some "not_found", notes := some ("Error: " ++ e) }
    tr' ++ [Event.updateItem item.id errData]

/-- The sequential loop over pending items, updating the progress record
before each item. -/
def loopItems (env : Env) (pid : String) (total : Nat) : Nat → List Item → List Event →
    List Event
  | _, [], tr => tr
  | idx, item :: rest, tr =>
    let b := item.brand
    let m := item.model_number
    let tr := tr ++ [Event.setProgress ⟨s!"Searching {idx}/{total}: {b} {m}", false, none⟩]
    let tr := processOneItem env pid item tr
    loopItems env pid total (idx + 1) rest tr

/-- `_process_project`: fetch the batch (a failure here is fatal and yields a
terminal error progress record), process the pending items in input order,
and finish with the terminal success record. -/
def processProject (env : Env) (pid : String) (total : Nat) : Progress × List Event :=
  match env.getProjectItems with
  | Except.error e => (⟨e, true, some e⟩, [])
  | Except.ok items =>
    let pending := items.filter (fun i => i.status == "pending")
    let tr := loopItems env pid total 1 pending []
    (⟨"Complete!", true, none⟩, tr ++ [Event.setProgress ⟨"Complete!", true, none⟩])

/-! ## Archive (ZIP) download jobs (`_download_jobs` in `main.py`) -/

/-- One entry of `_download_jobs`; `file_bytes`/`filename` are set by the
builder on completion. -/
structure DownloadJob where
  status : String
  message : String
  current : Nat
  total : Nat
  file_bytes : Option (List Nat) := none
  filename : Option String := none
deriving DecidableEq

/-- Dictionary lookup on the job table. -/
def lookupJob (jobs : List (String × DownloadJob)) (jobId : String) : Option DownloadJob :=
  (jobs.find? (fun p => p.1 == jobId)).map (·.2)

/-- Dictionary deletion (`del _download_jobs[job_id]`); keys are unique, so
removing every binding of the key models `del`. -/
def eraseJob (jobs : List (String × DownloadJob)) (jobId : String) :
    List (String × DownloadJob) :=
  jobs.filter (fun p => !(p.1 == jobId))

/-- Outcome of `GET /api/downloads/{job_id}/file`: either the payload and
suggested filename, or the 404 "Download not ready" error. -/
inductive FetchOutcome where
  | ok (bytes : Option (List Nat)) (filename : String)
  | notReady
deriving DecidableEq

/-- `download_file`: serve the archive only when the job exists and its
status is the terminal `"done"`, deleting the job record on success. -/
def downloadFile (jobs : List (String × DownloadJob)) (jobId : String) :
    FetchOutcome × List (String × DownloadJob) :=
  match lookupJob jobs jobId with
  | none => (FetchOutcome.notReady, jobs)
  | some job =>
    if job.status == "done" then
      (FetchOutcome.ok job.file_bytes (job.filename.getD "manuals.zip"), eraseJob jobs jobId)
    else (FetchOutcome.notReady, jobs)

/-- The poll view returned by `download_progress` (file payload fields are
stripped; a missing job reports `status = "not_found"`). -/
structure JobView where
  status : String
  message : String
  current : Option Nat
  total : Option Nat
deriving DecidableEq

/-- `download_progress`. -/
def downloadProgress (jobs : List (String × DownloadJob)) (jobId : String) : JobView :=
  match lookupJob jobs jobId with
  | none => ⟨"not_found", "Download job not found", none, none⟩
  | some j => ⟨j.status, j.message, some j.current, some j.total⟩

/-! ## Concrete demonstration inputs -/

/-- A network environment in which every fetch returns the given response and
every other collaborator fails; used to evaluate single download attempts. -/
def netOfResp (r : HttpResp) : NetEnv :=
  { pplxConfigured := false
    pplxApi := none
    fetch := fun _ => some r
    pageLinks := fun _ => none
    ddgHrefs := fun _ => none
    uddgParam := fun _ => none
    urljoin := fun a b => a ++ b }

/-- A network environment in which every collaborator fails. -/
def netAllFail : NetEnv :=
  { pplxConfigured := false
    pplxApi := none
    fetch := fun _ => none
    pageLinks := fun _ => none
    ddgHrefs := fun _ => none
    uddgParam := fun _ => none
    urljoin := fun a b => a ++ b }

/-- A 404 response that nevertheless declares a PDF content type. -/
def resp404 : HttpResp := ⟨404, "application/pdf", [1, 2, 3]⟩

/-- A plain page with one relative PDF link (no keywords) and one non-PDF
link that does carry a keyword. -/
def scanDemoLinks : List Link := [⟨"/a/m.pdf", "specs"⟩, ⟨"http://x/doc.html", "manual"⟩]

/-- Network environment whose only working collaborator is the page scraper,
serving `scanDemoLinks`. -/
def netScanDemo : NetEnv :=
  { pplxConfigured := false
    pplxApi := none
    fetch := fun _ => none
    pageLinks := fun _ => some scanDemoLinks
    ddgHrefs := fun _ => none
    uddgParam := fun _ => none
    urljoin := fun a b => a ++ b }

/-- A Perplexity response with no answer link and one non-PDF citation. -/
def pplxDemoResp : PplxResp := ⟨"no direct link", ["http://x/m"]⟩

/-- Perplexity configured and answering `pplxDemoResp`, with every download
attempt failing at the transport level. -/
def netPplxDemo : NetEnv :=
  { pplxConfigured := true
    pplxApi := some pplxDemoResp
    fetch := fun _ => none
    pageLinks := fun _ => none
    ddgHrefs := fun _ => none
    uddgParam := fun _ => none
    urljoin := fun a b => a ++ b }

/-- A pending work item used in concrete runs. -/
def itemDemo : Item := ⟨"i1", "Sony", "X100", "Television", "pending"⟩

/-- A fixed "current time" for concrete runs (seconds). -/
def baseNow : Int := 1000000000

/-- A cached negative record (no document URL) verified at time `t`. -/
def recNegative (t : Int) : CacheRecord := ⟨"p1", none, none, none, some (some t)⟩

/-- Worker environment around `recNegative t`: reliable record store, no
manual in storage, all network collaborators failing. -/
def envNegative (t : Int) : Env :=
  { net := netAllFail
    now := baseNow
    getProjectItems := Except.ok [itemDemo]
    getProductByModel := fun _ => Except.ok (some (recNegative t))
    getManualUrl := fun _ => Except.error "no storage"
    uploadManual := fun _ _ => Except.ok ()
    upsertProduct := fun _ => Except.ok (some "p1")
    updateProjectItem := fun _ _ => Except.ok () }

/-- Worker environment whose record store raises on every product lookup. -/
def envLookupBoom : Env :=
  { net := netAllFail
    now := baseNow
    getProjectItems := Except.ok [itemDemo]
    getProductByModel := fun _ => Except.error "boom"
    getManualUrl := fun _ => Except.error "no storage"
    uploadManual := fun _ _ => Except.ok ()
    upsertProduct := fun _ => Except.ok (some "p1")
    updateProjectItem := fun _ _ => Except.ok () }

/-- Worker environment with an empty cache (cold miss) and a reliable store. -/
def envColdMiss : Env :=
  { net := netAllFail
    now := baseNow
    getProjectItems := Except.ok [itemDemo]
    getProductByModel := fun _ => Except.ok none
    getManualUrl := fun _ => Except.error "no storage"
    uploadManual := fun _ _ => Except.ok ()
    upsertProduct := fun _ => Except.ok (some "p1")
    updateProjectItem := fun _ _ => Except.ok () }

/-- A cached record holding a full hit (non-empty document URL). -/
def recFullHit : CacheRecord :=
  ⟨"p2", some "http://maker.example/m.pdf", none, some "2 years", none⟩

/-- Worker environment around `recFullHit`. -/
def envFullHit : Env :=
  { net := netAllFail
    now := baseNow
    getProjectItems := Except.ok [itemDemo]
    getProductByModel := fun _ => Except.ok (some recFullHit)
    getManualUrl := fun _ => Except.error "no storage"
    uploadManual := fun _ _ => Except.ok ()
    upsertProduct := fun _ => Except.ok (some "p2")
    updateProjectItem := fun _ _ => Except.ok () }

/-- A completed download job carrying its archive. -/
def jobDone : DownloadJob :=
  { status := "done", message := "Download ready!", current := 1, total := 1,
    file_bytes := some [1, 2], filename := some "proj_manuals.zip" }

/-- An event segment free of orchestrator invocations and product upserts
(used to factor worker traces). -/
def noResolveEvents (Δ : List Event) : Prop :=
  ∀ e ∈ Δ, (∀ b m n, e ≠ Event.orchCall b m n) ∧ (∀ d, e ≠ Event.upsertProduct d)

/-! ## Theorems: document validator (C6) and transport failures (C5) -/

theorem infixCheck_nil (hay : List Char) : infixCheck [] hay = true := by
  induction hay with
  | nil => rfl
  | cons c cs ih => simp [infixCheck, List.isPrefixOf]

theorem strContains_empty (hay : String) : strContains hay "" = true := by
  simpa [strContains] using infixCheck_nil hay.toList

/-- C6: the download validator accepts a fetched payload as a genuine document
iff the declared content type indicates PDF or the first bytes match the
`%PDF-` magic signature; in particular a `text/html` payload with matching
magic bytes is accepted, and an `application/pdf` payload with arbitrary
non-matching bytes is accepted via the content-type declaration alone. -/
theorem C6_validator_content_type_or_magic :
    (∀ (net : NetEnv) (url : String) (resp : HttpResp),
      net.fetch url = some resp →
      ((tryDownloadPdf net url).isSome
        ↔ (strContains (pyLower resp.contentType) "pdf" = true
            ∨ resp.content.take 5 = pdfMagic)))
    ∧ tryDownloadPdf (netOfResp ⟨200, "text/html", pdfMagic ++ [1, 2]⟩) "u"
        = some (pdfMagic ++ [1, 2])
    ∧ tryDownloadPdf (netOfResp ⟨200, "application/pdf", [1, 2, 3]⟩) "u"
        = some [1, 2, 3] := by
  refine ⟨?_, by decide, by decide⟩
  intro net url resp h
  simp only [tryDownloadPdf, h]
  by_cases h1 : strContains (pyLower resp.contentType) "pdf" = true
  · simp [h1]
  · by_cases h2 : resp.content.take 5 = pdfMagic
    · simp [h1, h2]
    · simp [h1, h2]

/-- Witness for C6 at a concrete response. -/
theorem C6_validator_content_type_or_magic_witness :
    (tryDownloadPdf (netOfResp ⟨200, "application/pdf", [9]⟩) "u").isSome
      ↔ (strContains (pyLower "application/pdf") "pdf" = true
          ∨ [9].take 5 = pdfMagic) :=
  C6_validator_content_type_or_magic.1 (netOfResp ⟨200, "application/pdf", [9]⟩)
    "u" ⟨200, "application/pdf", [9]⟩ rfl

/-- C5 counterexample: the download path performs no status check, so a
non-2xx (404) response whose declared content type indicates PDF is *not*
treated as "this source produced nothing" — its body bytes are returned. -/
theorem C5_counterexample_non2xx_returns_bytes :
    (netOfResp resp404).fetch "http://example.com/m.pdf" = some resp404
    ∧ resp404.status = 404
    ∧ tryDownloadPdf (netOfResp resp404) "http://example.com/m.pdf" = some [1, 2, 3] := by
  refine ⟨rfl, rfl, ?_⟩
  decide

/-- C5 amended: network errors and timeouts (a raising fetch) make a download
attempt produce nothing and the pipeline proceeds to the next candidate, and
a failing DuckDuckGo search yields the empty result list; non-2xx responses,
however, are not detected by the download path (see the counterexample). -/
theorem C5_transport_failures_nonfatal :
    (∀ (net : NetEnv) (u : String), net.fetch u = none → tryDownloadPdf net u = none)
    ∧ (∀ (net : NetEnv) (q : String), net.ddgHrefs q = none → searchDuckduckgo net q = [])
    ∧ (∀ (net : NetEnv) (u : String) (rest : List String),
        tryDownloadPdf net u = none →
        tryCandidateDownloads net (u :: rest) = tryCandidateDownloads net rest) := by
  refine ⟨?_, ?_, ?_⟩
  · intro net u h
    simp [tryDownloadPdf, h]
  · intro net q h
    simp [searchDuckduckgo, h]
  · intro net u rest h
    simp [tryCandidateDownloads, h]

/-- Witness for C5 at a concrete failing fetch. -/
theorem C5_transport_failures_nonfatal_witness :
    tryDownloadPdf netAllFail "http://example.com/m.pdf" = none :=
  C5_transport_failures_nonfatal.1 netAllFail "http://example.com/m.pdf" rfl

/-! ## Theorems: page scraper with empty model token (C10) -/

theorem pyLower_empty : pyLower "" = "" := by decide

theorem strContains_model_empty (hay : String) : strContains hay (pyLower "") = true := by
  rw [pyLower_empty]
  exact strContains_empty hay

/-- C10: with an empty model token — as `download_pdf_from_url` always passes
— the model-containment test holds for every link, so the scraper returns
exactly the hyperlinks ending in `.pdf`, keyword or not; and the user-URL
download path, once direct download fails, tries exactly those scraped
candidates. -/
theorem C10_empty_model_scrapes_all_pdf_links :
    (∀ (net : NetEnv) (pageUrl : String) (links : List Link),
      net.pageLinks pageUrl = some links →
      scanPageForPdfLinks net pageUrl "" =
        links.filterMap (fun l =>
          if pyEndsWith (pyLower l.href) ".pdf"
          then some (if pyStartsWith l.href "http" then l.href else net.urljoin pageUrl l.href)
          else none))
    ∧ (∀ (net : NetEnv) (url : String),
        tryDownloadPdf net url = none →
        download_pdf_from_url net url
          = downloadFromCandidates net (scanPageForPdfLinks net url "")) := by
  constructor
  · intro net pageUrl links h
    simp only [scanPageForPdfLinks, h]
    clear h
    induction links with
    | nil => rfl
    | cons l ls ih =>
      have hm : strContains (pyLower l.href) (pyLower "") = true :=
        strContains_model_empty (pyLower l.href)
      simp only [List.filterMap_cons, hm, Bool.true_or, Bool.or_true, Bool.and_true, ih]
  · intro net url h
    simp [download_pdf_from_url, h]

/-- Witness for C10 on a concrete page: the keyword-free relative PDF link is
returned (resolved against the page URL); the keyword-bearing non-PDF link
is not. -/
theorem C10_empty_model_scrapes_all_pdf_links_witness :
    scanPageForPdfLinks netScanDemo "http://p" "" =
      scanDemoLinks.filterMap (fun l =>
        if pyEndsWith (pyLower l.href) ".pdf"
        then some (if pyStartsWith l.href "http" then l.href
                   else netScanDemo.urljoin "http://p" l.href)
        else none) :=
  C10_empty_model_scrapes_all_pdf_links.1 netScanDemo "http://p" scanDemoLinks rfl

/-! ## Theorems: the missing warranty sub-step (C1) -/

/-- C1 (code bug): `find_manual_and_warranty` performs no warranty work at
all — for every environment and product identity its result carries no
warranty text (`result.get("warranty_length")` is always `None`), and on a
concrete cold-miss run the result is just a manual-search outcome.  This
contradicts the specified always-running warranty-text sub-step. -/
theorem C1_no_warranty_substep :
    (∀ (net : NetEnv) (brand model name : String),
      (find_manual_and_warranty net brand model name).warranty_length = none)
    ∧ (find_manual_and_warranty netAllFail "Sony" "X100" "Television").warranty_length = none
    ∧ (find_manual_and_warranty netAllFail "Sony" "X100" "Television").status = "not_found" := by
  refine ⟨?_, rfl, ?_⟩
  · intro net b m n
    rfl
  · decide

/-! ## Theorems: archive fetch-exactly-once (C8) -/

theorem lookupJob_eraseJob (jobs : List (String × DownloadJob)) (jobId : String) :
    lookupJob (eraseJob jobs jobId) jobId = none := by
  have hf : List.find? (fun p => p.1 == jobId) (eraseJob jobs jobId) = none := by
    rw [List.find?_eq_none]
    intro x hx
    have hmem := (List.mem_filter.mp hx).2
    simpa using hmem
  simp [lookupJob, hf]

/-- C8: fetching a completed archive job returns the archive bytes and
filename and deletes the job record; a second fetch of the same id hits the
not-found outcome (and so does a progress poll). -/
theorem C8_archive_fetch_exactly_once (jobs : List (String × DownloadJob))
    (jobId : String) (job : DownloadJob)
    (hfind : lookupJob jobs jobId = some job) (hdone : job.status = "done") :
    downloadFile jobs jobId
      = (FetchOutcome.ok job.file_bytes (job.filename.getD "manuals.zip"), eraseJob jobs jobId)
    ∧ (downloadFile (eraseJob jobs jobId) jobId).1 = FetchOutcome.notReady
    ∧ downloadProgress (eraseJob jobs jobId) jobId
        = ⟨"not_found", "Download job not found", none, none⟩ := by
  refine ⟨?_, ?_, ?_⟩
  · simp [downloadFile, hfind, hdone]
  · simp [downloadFile, lookupJob_eraseJob]
  · simp [downloadProgress, lookupJob_eraseJob]

/-- Witness for C8 on a one-entry job table. -/
theorem C8_archive_fetch_exactly_once_witness :
    downloadFile [("j1", jobDone)] "j1"
      = (FetchOutcome.ok jobDone.file_bytes (jobDone.filename.getD "manuals.zip"),
         eraseJob [("j1", jobDone)] "j1")
    ∧ (downloadFile (eraseJob [("j1", jobDone)] "j1") "j1").1 = FetchOutcome.notReady
    ∧ downloadProgress (eraseJob [("j1", jobDone)] "j1") "j1"
        = ⟨"not_found", "Download job not found", none, none⟩ :=
  C8_archive_fetch_exactly_once [("j1", jobDone)] "j1" jobDone rfl rfl

/-! ## Theorems: per-item errors non-fatal, batch-load errors fatal (C7) -/

/-- C7: a failure to load the batch yields the terminal error progress
record; when the batch loads, the job always reaches the terminal success
record; a per-item error is caught, recorded as an error note on that item,
and the loop proceeds to the remaining items in input order. -/
theorem C7_per_item_errors_nonfatal :
    (∀ (env : Env) (pid : String) (total : Nat) (e : String),
      env.getProjectItems = Except.error e →
      processProject env pid total = (⟨e, true, some e⟩, []))
    ∧ (∀ (env : Env) (pid : String) (total : Nat) (items : List Item),
      env.getProjectItems = Except.ok items →
      (processProject env pid total).1 = ⟨"Complete!", true, none⟩)
    ∧ (∀ (env : Env) (pid : String) (item : Item) (tr : List Event) (e : String)
        (tr' : List Event),
      processItemBody env pid item tr = (Except.error e, tr') →
      processOneItem env pid item tr
        = tr' ++ [Event.updateItem item.id
            ⟨none, some "not_found", none, some ("Error: " ++ e)⟩])
    ∧ (∀ (env : Env) (pid : String) (total idx : Nat) (item : Item) (rest : List Item)
        (tr : List Event),
      loopItems env pid total idx (item :: rest) tr
        = loopItems env pid total (idx + 1) rest
            (processOneItem env pid item
              (tr ++ [Event.setProgress
                ⟨(let b := item.brand
                  let m := item.model_number
                  s!"Searching {idx}/{total}: {b} {m}"), false, none⟩]))) := by
  refine ⟨?_, ?_, ?_, ?_⟩
  · intro env pid total e h
    simp [processProject, h]
  · intro env pid total items h
    simp [processProject, h]
  · intro env pid item tr e tr' h
    simp [processOneItem, h]
  · intro env pid total idx item rest tr
    rfl

/-- Witness for C7: with a record store whose product lookup raises, the
failing item is annotated and the loop step terminates normally. -/
theorem C7_per_item_errors_nonfatal_witness :
    processOneItem envLookupBoom "proj" itemDemo []
      = [Event.getProduct "X100"]
        ++ [Event.updateItem "i1" ⟨none, some "not_found", none, some ("Error: " ++ "boom")⟩] :=
  C7_per_item_errors_nonfatal.2.2.1 envLookupBoom "proj" itemDemo [] "boom"
    [Event.getProduct "X100"] rfl

/-! ## Trace lemmas for the worker paths -/

/-- The storage step only logs upload / signed-URL events. -/
theorem storageStep_mem_iff (env : Env) (pid brand model : String) (r : FindResult)
    (tr : List Event) (ev : Event)
    (h1 : ∀ p b, ev ≠ Event.uploadManual p b) (h2 : ∀ p, ev ≠ Event.getManualUrl p) :
    (ev ∈ (storageStep env pid brand model r tr).2.2) ↔ ev ∈ tr := by
  simp only [storageStep]
  split
  · split
    · split
      · simp [List.mem_append, h1, h2]
      · simp [List.mem_append, h1, h2]
    · simp [List.mem_append, h1]
  · exact Iff.rfl

/-- `webSearchCore` adds no orchestrator-invocation event. -/
theorem webSearchCore_orch_iff (env : Env) (pid : String) (item : Item) (result : FindResult)
    (tr : List Event) (b m n : String) :
    Event.orchCall b m n ∈ (webSearchCore env pid item result tr).2
      ↔ Event.orchCall b m n ∈ tr := by
  rcases hS : storageStep env pid item.brand item.model_number result tr with ⟨sp, mu, tr2⟩
  have htr2 : (Event.orchCall b m n ∈ tr2) ↔ Event.orchCall b m n ∈ tr := by
    have hgen := storageStep_mem_iff env pid item.brand item.model_number result tr
      (Event.orchCall b m n) (by intro p bb; simp) (by intro p; simp)
    rw [hS] at hgen
    simpa using hgen
  simp only [webSearchCore, hS]
  split
  · simp [List.mem_append, htr2]
  · split
    · simp [List.mem_append, htr2]
    · simp [List.mem_append, htr2]

/-- `webSearchCore` adds no work-item-update event other than its own final
one (used to trace full-hit/suppressed updates); more precisely, any
update event in its trace is either inherited or the final one. -/
theorem webSearchCore_upsert_exists (env : Env) (pid : String) (item : Item)
    (result : FindResult) (tr : List Event) :
    ∃ d, Event.upsertProduct d ∈ (webSearchCore env pid item result tr).2
      ∧ d.model_number = normalizeModel item.model_number
      ∧ d.last_verified = some env.now := by
  rcases hS : storageStep env pid item.brand item.model_number result tr with ⟨sp, mu, tr2⟩
  simp only [webSearchCore, hS]
  split
  · refine ⟨⟨item.brand, normalizeModel item.model_number, item.product_name,
        pyOrOpt mu result.manual_source_url, sp, result.warranty_length, some env.now⟩,
        ?_, rfl, rfl⟩
    simp [List.mem_append]
  · split
    · refine ⟨⟨item.brand, normalizeModel item.model_number, item.product_name,
          pyOrOpt mu result.manual_source_url, sp, result.warranty_length, some env.now⟩,
          ?_, rfl, rfl⟩
      simp [List.mem_append]
    · refine ⟨⟨item.brand, normalizeModel item.model_number, item.product_name,
          pyOrOpt mu result.manual_source_url, sp, result.warranty_length, some env.now⟩,
          ?_, rfl, rfl⟩
      simp [List.mem_append]

/-- Any upsert event emitted by `webSearchCore` (beyond inherited ones) is
keyed by the normalised model and stamps the current time. -/
theorem webSearchCore_upsert_inv (env : Env) (pid : String) (item : Item)
    (result : FindResult) (tr : List Event) (d : ProductData) :
    Event.upsertProduct d ∈ (webSearchCore env pid item result tr).2 →
    Event.upsertProduct d ∈ tr
    ∨ (d.model_number = normalizeModel item.model_number
        ∧ d.last_verified = some env.now) := by
  rcases hS : storageStep env pid item.brand item.model_number result tr with ⟨sp, mu, tr2⟩
  have htr2 : (Event.upsertProduct d ∈ tr2) ↔ Event.upsertProduct d ∈ tr := by
    have hgen := storageStep_mem_iff env pid item.brand item.model_number result tr
      (Event.upsertProduct d) (by intro p bb; simp) (by intro p; simp)
    rw [hS] at hgen
    simpa using hgen
  simp only [webSearchCore, hS]
  split
  · intro hmem
    rcases (by simpa [List.mem_append] using hmem :
        Event.upsertProduct d ∈ tr2 ∨ d = _) with h | h
    · exact Or.inl (htr2.mp h)
    · subst h
      exact Or.inr ⟨rfl, rfl⟩
  · split
    · intro hmem
      rcases (by simpa [List.mem_append] using hmem :
          Event.upsertProduct d ∈ tr2 ∨ d = _) with h | h
      · exact Or.inl (htr2.mp h)
      · subst h
        exact Or.inr ⟨rfl, rfl⟩
    · intro hmem
      rcases (by simpa [List.mem_append] using hmem :
          Event.upsertProduct d ∈ tr2 ∨ d = _) with h | h
      · exact Or.inl (htr2.mp h)
      · subst h
        exact Or.inr ⟨rfl, rfl⟩

/-- The full-hit branch only logs a signed-URL regeneration and the found
update. -/
theorem fullHitStep_mem_iff (env : Env) (item : Item) (c : CacheRecord) (tr : List Event)
    (ev : Event) (h1 : ∀ p, ev ≠ Event.getManualUrl p)
    (h2 : ∀ i d, ev ≠ Event.updateItem i d) :
    (ev ∈ (fullHitStep env item c tr).2) ↔ ev ∈ tr := by
  simp only [fullHitStep]
  cases hsp : truthyS c.manual_storage_path with
  | true =>
    cases hg : env.getManualUrl (c.manual_storage_path.getD "") with
    | ok u =>
      simp only [hsp, hg]
      split <;> simp [List.mem_append, h1, h2]
    | error err =>
      simp only [hsp, hg]
      split <;> simp [List.mem_append, h1, h2]
  | false =>
    split <;> simp [List.mem_append, h2]

/-- The full-hit branch always logs the found-update with the regenerated or
cached reference. -/
theorem fullHitStep_update_mem (env : Env) (item : Item) (c : CacheRecord)
    (tr : List Event) :
    Event.updateItem item.id
      ⟨some c.id, some "found",
        some (pyOrOpt
          (if truthyS c.manual_storage_path then
            (match env.getManualUrl (c.manual_storage_path.getD "") with
             | Except.ok u => some u
             | Except.error _ => c.manual_source_url)
          else none) c.manual_source_url), none⟩
      ∈ (fullHitStep env item c tr).2 := by
  simp only [fullHitStep]
  cases hsp : truthyS c.manual_storage_path with
  | true =>
    cases hg : env.getManualUrl (c.manual_storage_path.getD "") with
    | ok u =>
      simp only [hsp, hg]
      split <;> simp [List.mem_append]
    | error err =>
      simp only [hsp, hg]
      split <;> simp [List.mem_append]
  | false =>
    split <;> simp [List.mem_append]

/-- Every web-search invocation logs the orchestrator call for its item. -/
theorem webSearch_orch_mem (env : Env) (pid : String) (item : Item)
    (cached : Option CacheRecord) (tr : List Event) :
    Event.orchCall item.brand item.model_number item.product_name
      ∈ (webSearch env pid item cached tr).2 := by
  simp only [webSearch]
  rw [webSearchCore_orch_iff]
  simp

/-- Orchestrator calls in a web-search trace are inherited or belong to the
item being processed. -/
theorem webSearch_orch_inv (env : Env) (pid : String) (item : Item)
    (cached : Option CacheRecord) (tr : List Event) (b m n : String) :
    Event.orchCall b m n ∈ (webSearch env pid item cached tr).2 →
    Event.orchCall b m n ∈ tr
    ∨ (b = item.brand ∧ m = item.model_number ∧ n = item.product_name) := by
  simp only [webSearch]
  rw [webSearchCore_orch_iff]
  intro h
  rcases List.mem_append.mp h with h | h
  · exact Or.inl h
  · right
    simpa using h

/-- Every web-search invocation upserts the product cache, keyed by the
normalised model and stamped with the current time. -/
theorem webSearch_upsert_exists (env : Env) (pid : String) (item : Item)
    (cached : Option CacheRecord) (tr : List Event) :
    ∃ d, Event.upsertProduct d ∈ (webSearch env pid item cached tr).2
      ∧ d.model_number = normalizeModel item.model_number
      ∧ d.last_verified = some env.now := by
  simp only [webSearch]
  exact webSearchCore_upsert_exists env pid item _ _

/-- Upserts in a web-search trace are inherited or carry the normalised key
and the refreshed timestamp. -/
theorem webSearch_upsert_inv (env : Env) (pid : String) (item : Item)
    (cached : Option CacheRecord) (tr : List Event) (d : ProductData) :
    Event.upsertProduct d ∈ (webSearch env pid item cached tr).2 →
    Event.upsertProduct d ∈ tr
    ∨ (d.model_number = normalizeModel item.model_number
        ∧ d.last_verified = some env.now) := by
  simp only [webSearch]
  intro h
  rcases webSearchCore_upsert_inv env pid item _ _ d h with h' | h'
  · rcases List.mem_append.mp h' with h'' | h''
    · exact Or.inl h''
    · simp at h''
  · exact Or.inr h'

/-- The URL and path components of the storage step do not depend on the
incoming trace. -/
theorem storageStep_proj_const (env : Env) (pid brand model : String) (r : FindResult)
    (tr : List Event) :
    (storageStep env pid brand model r tr).1 = (storageStep env pid brand model r []).1
    ∧ (storageStep env pid brand model r tr).2.1
        = (storageStep env pid brand model r []).2.1 := by
  simp only [storageStep]
  by_cases hb : bytesTruthy r.manual_pdf_bytes = true
  · simp only [if_pos hb]
    cases hu : env.uploadManual (r.manual_pdf_bytes.getD [])
        (pid ++ "/" ++ replaceSpaces (pyOrStr brand "unknown") ++ "_" ++ model
          ++ "_manual.pdf") with
    | ok u =>
      cases hg : env.getManualUrl
          (pid ++ "/" ++ replaceSpaces (pyOrStr brand "unknown") ++ "_" ++ model
            ++ "_manual.pdf") with
      | ok v => constructor <;> rfl
      | error e => constructor <;> rfl
    | error e => constructor <;> rfl
  · simp only [if_neg hb]
    constructor <;> first | rfl | trivial

/-- Any upsert event emitted by `webSearchCore` (beyond inherited ones)
carries exactly the expected payload for its result. -/
theorem webSearchCore_upsert_payload (env : Env) (pid : String) (item : Item)
    (result : FindResult) (tr : List Event) (d : ProductData) :
    Event.upsertProduct d ∈ (webSearchCore env pid item result tr).2 →
    Event.upsertProduct d ∈ tr ∨ d = corePayload env pid item result := by
  rcases hS : storageStep env pid item.brand item.model_number result tr with ⟨sp, mu, tr2⟩
  have hproj := storageStep_proj_const env pid item.brand item.model_number result tr
  have h1 : (storageStep env pid item.brand item.model_number result []).1 = sp := by
    rw [← hproj.1, hS]
  have h2 : (storageStep env pid item.brand item.model_number result []).2.1 = mu := by
    rw [← hproj.2, hS]
  have hpay : corePayload env pid item result
      = ⟨item.brand, normalizeModel item.model_number, item.product_name,
         pyOrOpt mu result.manual_source_url, sp, result.warranty_length,
         some env.now⟩ := by
    simp only [corePayload, h1, h2]
  have htr2 : (Event.upsertProduct d ∈ tr2) → Event.upsertProduct d ∈ tr := by
    intro hm
    have hgen := storageStep_mem_iff env pid item.brand item.model_number result tr
      (Event.upsertProduct d) (by intro p bb; simp) (by intro p; simp)
    rw [hS] at hgen
    exact hgen.mp hm
  rw [hpay]
  simp only [webSearchCore, hS]
  split
  · intro hmem
    rcases (by simpa [List.mem_append] using hmem :
        Event.upsertProduct d ∈ tr2 ∨ d = _) with h | h
    · exact Or.inl (htr2 h)
    · exact Or.inr h
  · split
    · intro hmem
      rcases (by simpa [List.mem_append] using hmem :
          Event.upsertProduct d ∈ tr2 ∨ d = _) with h | h
      · exact Or.inl (htr2 h)
      · exact Or.inr h
    · intro hmem
      rcases (by simpa [List.mem_append] using hmem :
          Event.upsertProduct d ∈ tr2 ∨ d = _) with h | h
      · exact Or.inl (htr2 h)
      · exact Or.inr h

/-- `webSearchCore` always emits the upsert of exactly the expected payload. -/
theorem webSearchCore_upsert_payload_mem (env : Env) (pid : String) (item : Item)
    (result : FindResult) (tr : List Event) :
    Event.upsertProduct (corePayload env pid item result)
      ∈ (webSearchCore env pid item result tr).2 := by
  rcases hS : storageStep env pid item.brand item.model_number result tr with ⟨sp, mu, tr2⟩
  have hproj := storageStep_proj_const env pid item.brand item.model_number result tr
  have h1 : (storageStep env pid item.brand item.model_number result []).1 = sp := by
    rw [← hproj.1, hS]
  have h2 : (storageStep env pid item.brand item.model_number result []).2.1 = mu := by
    rw [← hproj.2, hS]
  have hpay : corePayload env pid item result
      = ⟨item.brand, normalizeModel item.model_number, item.product_name,
         pyOrOpt mu result.manual_source_url, sp, result.warranty_length,
         some env.now⟩ := by
    simp only [corePayload, h1, h2]
  rw [hpay]
  simp only [webSearchCore, hS]
  split
  · simp [List.mem_append]
  · split
    · simp [List.mem_append]
    · simp [List.mem_append]

/-- Upserts in a web-search trace are inherited or carry exactly the payload
built from the orchestrator result merged with the cached warranty seed. -/
theorem webSearch_upsert_payload (env : Env) (pid : String) (item : Item)
    (cached : Option CacheRecord) (tr : List Event) (d : ProductData) :
    Event.upsertProduct d ∈ (webSearch env pid item cached tr).2 →
    Event.upsertProduct d ∈ tr
    ∨ d = upsertPayload env pid item (seedOf cached) := by
  simp only [webSearch]
  intro h
  rcases webSearchCore_upsert_payload env pid item _ _ d h with h' | h'
  · rcases List.mem_append.mp h' with h'' | h''
    · exact Or.inl h''
    · simp at h''
  · exact Or.inr h'

/-- Every web-search invocation emits the upsert of exactly the payload
built from the orchestrator result merged with the cached warranty seed. -/
theorem webSearch_upsert_payload_mem (env : Env) (pid : String) (item : Item)
    (cached : Option CacheRecord) (tr : List Event) :
    Event.upsertProduct (upsertPayload env pid item (seedOf cached))
      ∈ (webSearch env pid item cached tr).2 := by
  simp only [webSearch]
  exact webSearchCore_upsert_payload_mem env pid item _ _

/-- The partial-cache path either stops at its item update (record-store
failure) or factors through the web search with only an update event added. -/
theorem partialAndSearch_factor (env : Env) (pid : String) (item : Item)
    (c : CacheRecord) (tr : List Event) :
    ((∀ b m n, Event.orchCall b m n ∈ (partialAndSearch env pid item c tr).2 →
        Event.orchCall b m n ∈ tr)
      ∧ (∀ d, Event.upsertProduct d ∈ (partialAndSearch env pid item c tr).2 →
        Event.upsertProduct d ∈ tr))
    ∨ (∃ trPre, partialAndSearch env pid item c tr = webSearch env pid item (some c) trPre
        ∧ (∀ b m n, Event.orchCall b m n ∈ trPre → Event.orchCall b m n ∈ tr)
        ∧ (∀ d, Event.upsertProduct d ∈ trPre → Event.upsertProduct d ∈ tr)) := by
  simp only [partialAndSearch]
  split
  · left
    constructor
    · intro b m n h
      simpa using h
    · intro d h
      simpa using h
  · right
    refine ⟨tr ++ [Event.updateItem item.id { product_id := some c.id }], rfl, ?_, ?_⟩
    · intro b m n h
      simpa using h
    · intro d h
      simpa using h

/-- The per-item body either never reaches the web search (its trace gains no
orchestrator call and no upsert) or factors through `webSearch` with only
cache-gate events added before it. -/
theorem processItemBody_factor (env : Env) (pid : String) (item : Item) (tr : List Event) :
    ((∀ b m n, Event.orchCall b m n ∈ (processItemBody env pid item tr).2 →
        Event.orchCall b m n ∈ tr)
      ∧ (∀ d, Event.upsertProduct d ∈ (processItemBody env pid item tr).2 →
        Event.upsertProduct d ∈ tr))
    ∨ (∃ cached trPre,
        processItemBody env pid item tr = webSearch env pid item cached trPre
        ∧ (∀ b m n, Event.orchCall b m n ∈ trPre → Event.orchCall b m n ∈ tr)
        ∧ (∀ d, Event.upsertProduct d ∈ trPre → Event.upsertProduct d ∈ tr)) := by
  simp only [processItemBody]
  cases hP : env.getProductByModel (normalizeModel item.model_number) with
  | error e =>
    dsimp only
    left
    constructor
    · intro b m n h
      simpa using h
    · intro d h
      simpa using h
  | ok cached =>
    cases cached with
    | none =>
      dsimp only
      right
      exact ⟨none, tr ++ [Event.getProduct (normalizeModel item.model_number)], rfl,
        fun b m n h => by simpa using h, fun d h => by simpa using h⟩
    | some c =>
      dsimp only
      by_cases hURL : truthyS c.manual_source_url = true
      · rw [if_pos hURL]
        left
        constructor
        · intro b m n h
          rw [fullHitStep_mem_iff env item c _ _ (fun p => by simp)
            (fun i d => by simp)] at h
          simpa using h
        · intro d h
          rw [fullHitStep_mem_iff env item c _ _ (fun p => by simp)
            (fun i d' => by simp)] at h
          simpa using h
      · rw [if_neg hURL]
        cases hLV : c.last_verified with
        | none =>
          dsimp only
          rcases partialAndSearch_factor env pid item c
              (tr ++ [Event.getProduct (normalizeModel item.model_number)]) with
            ⟨hA, hB⟩ | ⟨trPre, hEq, hA, hB⟩
          · left
            exact ⟨fun b m n h => by simpa using hA b m n h,
                   fun d h => by simpa using hB d h⟩
          · right
            exact ⟨some c, trPre, hEq, fun b m n h => by simpa using hA b m n h,
                   fun d h => by simpa using hB d h⟩
        | some lvOpt =>
          cases lvOpt with
          | none =>
            dsimp only
            rcases partialAndSearch_factor env pid item c
                (tr ++ [Event.getProduct (normalizeModel item.model_number)]) with
              ⟨hA, hB⟩ | ⟨trPre, hEq, hA, hB⟩
            · left
              exact ⟨fun b m n h => by simpa using hA b m n h,
                     fun d h => by simpa using hB d h⟩
            · right
              exact ⟨some c, trPre, hEq, fun b m n h => by simpa using hA b m n h,
                     fun d h => by simpa using hB d h⟩
          | some lv =>
            dsimp only
            by_cases hRec : lv > env.now - freshnessWindow
            · rw [if_pos hRec]
              cases hU : env.updateProjectItem item.id
                  { product_id := some c.id, status := some "not_found",
                    manual_url := none,
                    notes := some "Previously searched (cached)" } with
              | ok u =>
                dsimp only
                left
                constructor
                · intro b m n h
                  simpa using h
                · intro d h
                  simpa using h
              | error e =>
                dsimp only
                rcases partialAndSearch_factor env pid item c
                    ((tr ++ [Event.getProduct (normalizeModel item.model_number)])
                      ++ [Event.updateItem item.id
                            { product_id := some c.id, status := some "not_found",
                              manual_url := none,
                              notes := some "Previously searched (cached)" }]) with
                  ⟨hA, hB⟩ | ⟨trPre, hEq, hA, hB⟩
                · left
                  exact ⟨fun b m n h => by simpa using hA b m n h,
                         fun d h => by simpa using hB d h⟩
                · right
                  exact ⟨some c, trPre, hEq, fun b m n h => by simpa using hA b m n h,
                         fun d h => by simpa using hB d h⟩
            · rw [if_neg hRec]
              rcases partialAndSearch_factor env pid item c
                  (tr ++ [Event.getProduct (normalizeModel item.model_number)]) with
                ⟨hA, hB⟩ | ⟨trPre, hEq, hA, hB⟩
              · left
                exact ⟨fun b m n h => by simpa using hA b m n h,
                       fun d h => by simpa using hB d h⟩
              · right
                exact ⟨some c, trPre, hEq, fun b m n h => by simpa using hA b m n h,
                       fun d h => by simpa using hB d h⟩

/-- The per-item handler only ever appends one extra item-update event, so
membership of non-update events transfers between the guarded body and the
full iteration. -/
theorem processOneItem_mem_iff (env : Env) (pid : String) (item : Item) (tr : List Event)
    (ev : Event) (h : ∀ i d, ev ≠ Event.updateItem i d) :
    ev ∈ processOneItem env pid item tr ↔ ev ∈ (processItemBody env pid item tr).2 := by
  rcases hB : processItemBody env pid item tr with ⟨res, tr'⟩
  cases res with
  | ok u =>
    simp only [processOneItem, hB]
  | error e =>
    simp only [processOneItem, hB]
    simp [List.mem_append, h]

/-- Events of the guarded body stay in the full iteration's trace. -/
theorem processOneItem_mem_mono (env : Env) (pid : String) (item : Item) (tr : List Event)
    (ev : Event) (h : ev ∈ (processItemBody env pid item tr).2) :
    ev ∈ processOneItem env pid item tr := by
  rcases hB : processItemBody env pid item tr with ⟨res, tr'⟩
  rw [hB] at h
  cases res with
  | ok u =>
    simpa only [processOneItem, hB] using h
  | error e =>
    simp only [processOneItem, hB]
    simp only [List.mem_append]
    exact Or.inl h

/-! ## Theorems: Cache Gate full hit (C2) -/

/-- C2: when the cached record carries a non-empty document URL, the item is
marked found with the cached reference (regenerated signed URL when stored
internally, original source URL otherwise or on failure) and no orchestrator
call — hence no Source Resolver — ever happens for that item. -/
theorem C2_full_hit_reuses_cache_never_searches (env : Env) (pid : String) (item : Item)
    (c : CacheRecord)
    (hlookup : env.getProductByModel (normalizeModel item.model_number)
      = Except.ok (some c))
    (hurl : truthyS c.manual_source_url = true) :
    (∀ b m n, Event.orchCall b m n ∉ processOneItem env pid item [])
    ∧ Event.updateItem item.id
        ⟨some c.id, some "found",
          some (pyOrOpt
            (if truthyS c.manual_storage_path then
              (match env.getManualUrl (c.manual_storage_path.getD "") with
               | Except.ok u => some u
               | Except.error _ => c.manual_source_url)
            else none) c.manual_source_url), none⟩
        ∈ processOneItem env pid item [] := by
  have hBody : processItemBody env pid item []
      = fullHitStep env item c ([] ++ [Event.getProduct (normalizeModel item.model_number)]) := by
    simp only [processItemBody, hlookup]
    rw [if_pos hurl]
  constructor
  · intro b m n
    rw [processOneItem_mem_iff env pid item [] _ (fun i d => by simp)]
    rw [hBody]
    rw [fullHitStep_mem_iff env item c _ _ (fun p => by simp) (fun i d => by simp)]
    simp
  · apply processOneItem_mem_mono
    rw [hBody]
    exact fullHitStep_update_mem env item c _

/-- Witness for C2 on a concrete full-hit cache record. -/
theorem C2_full_hit_reuses_cache_never_searches_witness :
    (∀ b m n, Event.orchCall b m n ∉ processOneItem envFullHit "proj" itemDemo [])
    ∧ Event.updateItem itemDemo.id
        ⟨some recFullHit.id, some "found",
          some (pyOrOpt
            (if truthyS recFullHit.manual_storage_path then
              (match envFullHit.getManualUrl (recFullHit.manual_storage_path.getD "") with
               | Except.ok u => some u
               | Except.error _ => recFullHit.manual_source_url)
            else none) recFullHit.manual_source_url), none⟩
        ∈ processOneItem envFullHit "proj" itemDemo [] :=
  C2_full_hit_reuses_cache_never_searches envFullHit "proj" itemDemo recFullHit rfl rfl

/-! ## Theorems: Cache Gate suppressed miss and the 7-day boundary (C3) -/

/-- C3: a cached record without document URL whose `last_verified` lies
strictly within the 7-day window makes the gate mark the item `not_found`
with the cached-result note and never invoke the orchestrator (given a
record store whose item updates succeed); one second inside the window the
run is exactly the suppression trace, one second outside it the orchestrator
is invoked (re-search). -/
theorem C3_suppressed_miss_within_window :
    (∀ (env : Env) (pid : String) (item : Item) (c : CacheRecord) (lv : Int),
      env.getProductByModel (normalizeModel item.model_number) = Except.ok (some c) →
      truthyS c.manual_source_url = false →
      c.last_verified = some (some lv) →
      lv > env.now - freshnessWindow →
      (∀ i d, env.updateProjectItem i d = Except.ok ()) →
      Event.updateItem item.id
        ⟨some c.id, some "not_found", none, some "Previously searched (cached)"⟩
        ∈ processOneItem env pid item []
      ∧ (∀ b m n, Event.orchCall b m n ∉ processOneItem env pid item []))
    ∧ processOneItem (envNegative (baseNow - freshnessWindow + 1)) "proj" itemDemo []
        = [Event.getProduct "X100",
           Event.updateItem "i1" ⟨some "p1", some "not_found", none,
             some "Previously searched (cached)"⟩]
    ∧ Event.orchCall "Sony" "X100" "Television"
        ∈ processOneItem (envNegative (baseNow - freshnessWindow - 1)) "proj" itemDemo [] := by
  refine ⟨?_, by decide, by decide⟩
  intro env pid item c lv hlookup hnourl hlv hrec hupd
  have hBody : processItemBody env pid item []
      = (Except.ok (), ([] ++ [Event.getProduct (normalizeModel item.model_number)])
          ++ [Event.updateItem item.id
               ⟨some c.id, some "not_found", none, some "Previously searched (cached)"⟩]) := by
    simp only [processItemBody, hlookup]
    rw [if_neg (by simp [hnourl])]
    simp only [hlv]
    rw [if_pos hrec]
    simp only [hupd]
  constructor
  · apply processOneItem_mem_mono
    rw [hBody]
    simp
  · intro b m n
    rw [processOneItem_mem_iff env pid item [] _ (fun i d => by simp)]
    rw [hBody]
    simp

/-- Witness for C3 one second inside the freshness window. -/
theorem C3_suppressed_miss_within_window_witness :
    Event.updateItem itemDemo.id
      ⟨some (recNegative (baseNow - freshnessWindow + 1)).id, some "not_found", none,
        some "Previously searched (cached)"⟩
      ∈ processOneItem (envNegative (baseNow - freshnessWindow + 1)) "proj" itemDemo []
    ∧ (∀ b m n, Event.orchCall b m n
        ∉ processOneItem (envNegative (baseNow - freshnessWindow + 1)) "proj" itemDemo []) :=
  C3_suppressed_miss_within_window.1 (envNegative (baseNow - freshnessWindow + 1)) "proj"
    itemDemo (recNegative (baseNow - freshnessWindow + 1)) (baseNow - freshnessWindow + 1)
    rfl rfl rfl (by decide) (fun i d => rfl)

/-! ## Theorems: cache upsert after every orchestrator invocation (C9) -/

/-- C9: within one item's processing, the orchestrator is invoked iff the
product cache is upserted, and every upsert carries exactly the payload of
`main.py` lines 130-139: keyed by the normalised (trimmed, upper-cased)
model, with the discovered document reference (the signed storage URL
preferred over the discovered source URL), the discovered-or-seeded warranty
text, and `last_verified` refreshed to the current time — for some warranty
seed (the cached record's, or none on a cold miss). -/
theorem C9_upsert_follows_every_search (env : Env) (pid : String) (item : Item) :
    ((∃ b m n, Event.orchCall b m n ∈ processOneItem env pid item [])
      ↔ (∃ d, Event.upsertProduct d ∈ processOneItem env pid item []))
    ∧ (∀ d, Event.upsertProduct d ∈ processOneItem env pid item [] →
        d.model_number = normalizeModel item.model_number
        ∧ d.last_verified = some env.now
        ∧ ∃ seed, d = upsertPayload env pid item seed) := by
  have hOrch : ∀ b m n, (Event.orchCall b m n ∈ processOneItem env pid item []
      ↔ Event.orchCall b m n ∈ (processItemBody env pid item []).2) :=
    fun b m n => processOneItem_mem_iff env pid item [] _ (fun i d => by simp)
  have hUps : ∀ d, (Event.upsertProduct d ∈ processOneItem env pid item []
      ↔ Event.upsertProduct d ∈ (processItemBody env pid item []).2) :=
    fun d => processOneItem_mem_iff env pid item [] _ (fun i d' => by simp)
  rcases processItemBody_factor env pid item [] with ⟨hA, hB⟩ | ⟨cached, trPre, hEq, hA, hB⟩
  · refine ⟨⟨?_, ?_⟩, ?_⟩
    · rintro ⟨b, m, n, h⟩
      exact absurd (hA b m n ((hOrch b m n).mp h)) (by simp)
    · rintro ⟨d, h⟩
      exact absurd (hB d ((hUps d).mp h)) (by simp)
    · intro d h
      exact absurd (hB d ((hUps d).mp h)) (by simp)
  · refine ⟨⟨?_, ?_⟩, ?_⟩
    · rintro ⟨b, m, n, _⟩
      obtain ⟨d, hd, hf1, hf2⟩ := webSearch_upsert_exists env pid item cached trPre
      refine ⟨d, (hUps d).mpr ?_⟩
      rw [hEq]
      exact hd
    · rintro ⟨d, _⟩
      refine ⟨item.brand, item.model_number, item.product_name, (hOrch _ _ _).mpr ?_⟩
      rw [hEq]
      exact webSearch_orch_mem env pid item cached trPre
    · intro d h
      have h' := (hUps d).mp h
      rw [hEq] at h'
      rcases webSearch_upsert_payload env pid item cached trPre d h' with h'' | h''
      · exact absurd (hB d h'') (by simp)
      · subst h''
        exact ⟨rfl, rfl, seedOf cached, rfl⟩

/-- Witness for C9 on a concrete cold-miss run. -/
theorem C9_upsert_follows_every_search_witness :
    (⟨"Sony", "X100", "Television", none, none, none,
        some envColdMiss.now⟩ : ProductData).model_number
      = normalizeModel itemDemo.model_number
    ∧ (⟨"Sony", "X100", "Television", none, none, none,
        some envColdMiss.now⟩ : ProductData).last_verified = some envColdMiss.now
    ∧ ∃ seed, (⟨"Sony", "X100", "Television", none, none, none,
        some envColdMiss.now⟩ : ProductData) = upsertPayload envColdMiss "proj" itemDemo seed :=
  (C9_upsert_follows_every_search envColdMiss "proj" itemDemo).2
    ⟨"Sony", "X100", "Television", none, none, none, some envColdMiss.now⟩ (by decide)

/-! ## Theorems: found iff validated bytes (C4) -/

/-- A successful candidate download always carries non-empty bytes. -/
theorem tryCandidateDownloads_bytes_ne (net : NetEnv) :
    ∀ (l : List String) (u : String) (bs : List Nat),
      tryCandidateDownloads net l = some (u, bs) → bs ≠ [] := by
  intro l
  induction l with
  | nil =>
    intro u bs h
    simp [tryCandidateDownloads] at h
  | cons x xs ih =>
    intro u bs h
    simp only [tryCandidateDownloads] at h
    cases hd : tryDownloadPdf net x with
    | none =>
      rw [hd] at h
      exact ih u bs h
    | some bs' =>
      rw [hd] at h
      dsimp only at h
      by_cases he : bs'.isEmpty
      · simp only [he, if_pos] at h
        exact ih u bs h
      · rw [if_neg he] at h
        rcases Option.some.inj h with h'
        rcases Prod.mk.injEq .. ▸ h' with ⟨h1, h2⟩
        subst h2
        simpa using he

/-- Page-scanning candidates likewise only succeed with non-empty bytes. -/
theorem scanCandidatePages_bytes_ne (net : NetEnv) (model : String) :
    ∀ (l : List String) (u : String) (bs : List Nat),
      scanCandidatePages net model l = some (u, bs) → bs ≠ [] := by
  intro l
  induction l with
  | nil =>
    intro u bs h
    simp [scanCandidatePages] at h
  | cons x xs ih =>
    intro u bs h
    simp only [scanCandidatePages] at h
    by_cases hp : pyEndsWith (pyLower x) ".pdf"
    · rw [if_pos hp] at h
      exact ih u bs h
    · rw [if_neg hp] at h
      cases ht : tryCandidateDownloads net (scanPageForPdfLinks net x model) with
      | none =>
        rw [ht] at h
        exact ih u bs h
      | some r =>
        rw [ht] at h
        rcases Option.some.inj h with h'
        subst h'
        exact tryCandidateDownloads_bytes_ne net _ u bs ht

/-- Direct-PDF pass successes carry non-empty bytes. -/
theorem ddgDirectPass_bytes_ne (net : NetEnv) :
    ∀ (l : List String) (u : String) (bs : List Nat),
      ddgDirectPass net l = some (u, bs) → bs ≠ [] := by
  intro l
  induction l with
  | nil =>
    intro u bs h
    simp [ddgDirectPass] at h
  | cons x xs ih =>
    intro u bs h
    simp only [ddgDirectPass] at h
    by_cases hp : pyEndsWith (pyLower x) ".pdf"
    · rw [if_pos hp] at h
      cases hd : tryDownloadPdf net x with
      | none =>
        rw [hd] at h
        exact ih u bs h
      | some bs' =>
        rw [hd] at h
        dsimp only at h
        by_cases he : bs'.isEmpty
        · simp only [he, if_pos] at h
          exact ih u bs h
        · rw [if_neg he] at h
          rcases Option.some.inj h with h'
          rcases Prod.mk.injEq .. ▸ h' with ⟨h1, h2⟩
          subst h2
          simpa using he
    · rw [if_neg hp] at h
      exact ih u bs h

/-- Scan-pass successes carry non-empty bytes. -/
theorem ddgScanPass_bytes_ne (net : NetEnv) (model : String) :
    ∀ (l : List String) (u : String) (bs : List Nat),
      ddgScanPass net model l = some (u, bs) → bs ≠ [] := by
  intro l
  induction l with
  | nil =>
    intro u bs h
    simp [ddgScanPass] at h
  | cons x xs ih =>
    intro u bs h
    simp only [ddgScanPass] at h
    cases ht : tryCandidateDownloads net (scanPageForPdfLinks net x model) with
    | none =>
      rw [ht] at h
      exact ih u bs h
    | some r =>
      rw [ht] at h
      rcases Option.some.inj h with h'
      subst h'
      exact tryCandidateDownloads_bytes_ne net _ u bs ht

/-- Fallback-chain successes carry non-empty bytes. -/
theorem ddgFallback_bytes_ne (net : NetEnv) (model : String) :
    ∀ (qs : List String) (u : String) (bs : List Nat),
      ddgFallback net model qs = some (u, bs) → bs ≠ [] := by
  intro qs
  induction qs with
  | nil =>
    intro u bs h
    simp [ddgFallback] at h
  | cons q rest ih =>
    intro u bs h
    simp only [ddgFallback] at h
    cases h1 : ddgDirectPass net (searchDuckduckgo net q) with
    | some r =>
      rw [h1] at h
      rcases Option.some.inj h with h'
      subst h'
      exact ddgDirectPass_bytes_ne net _ u bs h1
    | none =>
      rw [h1] at h
      cases h2 : ddgScanPass net model ((searchDuckduckgo net q).take 4) with
      | some r =>
        rw [h2] at h
        rcases Option.some.inj h with h'
        subst h'
        exact ddgScanPass_bytes_ne net model _ u bs h2
      | none =>
        rw [h2] at h
        exact ih u bs h

/-- Perplexity-resolver successes carry non-empty bytes. -/
theorem searchPerplexityForManual_bytes_ne (net : NetEnv) (b m n : String)
    (u : Option String) (bs : List Nat)
    (h : searchPerplexityForManual net b m n = (u, some bs)) : bs ≠ [] := by
  simp only [searchPerplexityForManual] at h
  by_cases hc : net.pplxConfigured
  · rw [if_neg (by simpa using hc)] at h
    cases ha : net.pplxApi with
    | none =>
      rw [ha] at h
      simp at h
    | some resp =>
      rw [ha] at h
      dsimp only at h
      cases h1 : tryCandidateDownloads net (buildCandidates resp) with
      | some r =>
        rw [h1] at h
        dsimp only at h
        rcases Prod.mk.injEq .. ▸ h with ⟨h2, h3⟩
        rcases Option.some.inj h3 with h4
        subst h4
        exact tryCandidateDownloads_bytes_ne net _ r.1 r.2 (by simpa using h1)
      | none =>
        rw [h1] at h
        dsimp only at h
        cases h2 : scanCandidatePages net m ((buildCandidates resp).take 3) with
        | some r =>
          rw [h2] at h
          dsimp only at h
          rcases Prod.mk.injEq .. ▸ h with ⟨h3, h4⟩
          rcases Option.some.inj h4 with h5
          subst h5
          exact scanCandidatePages_bytes_ne net m _ r.1 r.2 (by simpa using h2)
        | none =>
          rw [h2] at h
          dsimp only at h
          cases hcand : buildCandidates resp with
          | nil =>
            rw [hcand] at h
            simp at h
          | cons c rest =>
            rw [hcand] at h
            simp at h
  · rw [if_pos (by simpa using hc)] at h
    simp at h

/-- The Perplexity step yields either no bytes or non-empty bytes. -/
theorem pplxStep_fst_cases (net : NetEnv) (b m n : String) :
    (pplxStep net b m n).1 = none
    ∨ ∃ bs, (pplxStep net b m n).1 = some bs ∧ bs ≠ [] := by
  simp only [pplxStep]
  by_cases hc : net.pplxConfigured
  · rw [if_pos hc]
    cases hp : (searchPerplexityForManual net b m n).2 with
    | none =>
      simp [bytesTruthy, hp, truthyS]
      split <;> simp
    | some bs =>
      by_cases he : bs.isEmpty
      · simp [bytesTruthy, hp, he]
        split <;> simp
      · right
        refine ⟨bs, ?_, by simpa using he⟩
        simp [bytesTruthy, hp, he]
  · rw [if_neg hc]
    simp

/-- The orchestrator yields either no bytes or non-empty (validated) bytes. -/
theorem find_bytes_cases (net : NetEnv) (b m n : String) :
    (find_manual_and_warranty net b m n).manual_pdf_bytes = none
    ∨ ∃ bs, (find_manual_and_warranty net b m n).manual_pdf_bytes = some bs ∧ bs ≠ [] := by
  simp only [find_manual_and_warranty]
  by_cases h1 : bytesTruthy (pplxStep net b m n).1 = true
  · rw [if_pos h1]
    cases hp : (pplxStep net b m n).1 with
    | none =>
      rw [hp] at h1
      simp [bytesTruthy] at h1
    | some bs =>
      rw [hp] at h1
      right
      exact ⟨bs, rfl, by simpa [bytesTruthy] using h1⟩
  · rw [if_neg h1]
    cases hf : ddgFallback net m (buildSearchQueries b m n) with
    | none =>
      rcases pplxStep_fst_cases net b m n with h | ⟨bs, h, hne⟩
      · left
        simpa using h
      · right
        exact ⟨bs, by simpa using h, hne⟩
    | some r =>
      right
      exact ⟨r.2, rfl, ddgFallback_bytes_ne net m _ r.1 r.2 (by simpa using hf)⟩

/-- With every fetch failing, no candidate download ever succeeds. -/
theorem tryCandidateDownloads_all_fail (net : NetEnv) (hf : ∀ u, net.fetch u = none) :
    ∀ l, tryCandidateDownloads net l = none := by
  intro l
  induction l with
  | nil => rfl
  | cons x xs ih =>
    simp [tryCandidateDownloads, tryDownloadPdf, hf x, ih]

/-- With every fetch failing, page scans produce no download. -/
theorem scanCandidatePages_all_fail (net : NetEnv) (hf : ∀ u, net.fetch u = none)
    (model : String) : ∀ l, scanCandidatePages net model l = none := by
  intro l
  induction l with
  | nil => rfl
  | cons x xs ih =>
    simp [scanCandidatePages, tryCandidateDownloads_all_fail net hf, ih]

/-- With every fetch failing, the direct-PDF pass produces nothing. -/
theorem ddgDirectPass_all_fail (net : NetEnv) (hf : ∀ u, net.fetch u = none) :
    ∀ l, ddgDirectPass net l = none := by
  intro l
  induction l with
  | nil => rfl
  | cons x xs ih =>
    simp [ddgDirectPass, tryDownloadPdf, hf x, ih]

/-- With every fetch failing, the scan pass produces nothing. -/
theorem ddgScanPass_all_fail (net : NetEnv) (hf : ∀ u, net.fetch u = none)
    (model : String) : ∀ l, ddgScanPass net model l = none := by
  intro l
  induction l with
  | nil => rfl
  | cons x xs ih =>
    simp [ddgScanPass, tryCandidateDownloads_all_fail net hf, ih]

/-- With every fetch failing, the whole DDG fallback chain produces nothing. -/
theorem ddgFallback_all_fail (net : NetEnv) (hf : ∀ u, net.fetch u = none)
    (model : String) : ∀ qs, ddgFallback net model qs = none := by
  intro qs
  induction qs with
  | nil => rfl
  | cons q rest ih =>
    simp [ddgFallback, ddgDirectPass_all_fail net hf, ddgScanPass_all_fail net hf, ih]

/-- C4: the orchestrator's status is `"found"` iff validated document bytes
were obtained; and when Perplexity produced candidate URLs but every
download attempt fails at the transport level, the status is `"not_found"`
while `manual_source_url` still carries the highest-priority candidate. -/
theorem C4_found_iff_validated_bytes :
    (∀ (net : NetEnv) (b m n : String),
      ((find_manual_and_warranty net b m n).status = "found"
        ↔ (find_manual_and_warranty net b m n).manual_pdf_bytes.isSome = true))
    ∧ (∀ (net : NetEnv) (b m n : String) (resp : PplxResp) (c : String) (rest : List String),
      net.pplxConfigured = true →
      net.pplxApi = some resp →
      buildCandidates resp = c :: rest →
      c ≠ "" →
      (∀ u, net.fetch u = none) →
      (find_manual_and_warranty net b m n).status = "not_found"
      ∧ (find_manual_and_warranty net b m n).manual_pdf_bytes = none
      ∧ (find_manual_and_warranty net b m n).manual_source_url = some c) := by
  constructor
  · intro net b m n
    have hstat : (find_manual_and_warranty net b m n).status
        = if bytesTruthy (find_manual_and_warranty net b m n).manual_pdf_bytes
          then "found" else "not_found" := rfl
    rcases find_bytes_cases net b m n with h | ⟨bs, h, hne⟩
    · rw [hstat, h]
      have hne' : ("not_found" : String) ≠ "found" := by decide
      simp [bytesTruthy, hne']
    · rw [hstat, h]
      rcases bs with _ | ⟨x, xs⟩
      · exact absurd rfl hne
      · simp [bytesTruthy]
  · intro net b m n resp c rest hconf happi hcand hc hfail
    have hpplx : searchPerplexityForManual net b m n = (some c, none) := by
      simp only [searchPerplexityForManual, hconf, happi]
      simp [tryCandidateDownloads_all_fail net hfail,
            scanCandidatePages_all_fail net hfail, hcand]
    have hstep1 : pplxStep net b m n = (none, some c) := by
      simp [pplxStep, hconf, hpplx, bytesTruthy, truthyS, hc]
    refine ⟨?_, ?_, ?_⟩ <;>
      simp [find_manual_and_warranty, hstep1, bytesTruthy,
            ddgFallback_all_fail net hfail]

/-- Witness for C4 on a concrete URL-only Perplexity outcome. -/
theorem C4_found_iff_validated_bytes_witness :
    (find_manual_and_warranty netPplxDemo "b" "m" "n").status = "not_found"
    ∧ (find_manual_and_warranty netPplxDemo "b" "m" "n").manual_pdf_bytes = none
    ∧ (find_manual_and_warranty netPplxDemo "b" "m" "n").manual_source_url
        = some "http://x/m" :=
  C4_found_iff_validated_bytes.2 netPplxDemo "b" "m" "n" pplxDemoResp "http://x/m" []
    rfl rfl (by decide) (by decide) (fun u => rfl)
